import Mathlib

/-!
Verification of the host-based unit-test runner plugin
(`BaseTools/Plugin/HostBasedUnitTestRunner/HostBasedUnitTestRunner.py`).

The Python plugin is shallowly embedded as follows:

* External effects (spawned commands, the filesystem, glob results, the
  captured output of `lcov --version`) are supplied by oracle structures
  (`ArchWorld`, `Builder`, `CovWorld`, `MsvcWorld`) whose fields are plain
  functions; the embedded code consumes them exactly where the source calls
  `RunCmd`, `glob.glob`, `os.path.isfile`, `os.stat`, ...
* A spawned command's exit status is an `Int` (the value Python's `RunCmd`
  returns).
* Python exceptions that the source does not catch are modelled with
  `Except`: an `.error` value carries the kind of exception and the log
  emitted so far, since an escaping exception loses the local
  `failure_count` accumulator.
* Log statements that the claims talk about are modelled as `LogEntry`
  values accumulated in order; log lines that carry no information used by
  any claim (for example the per-file "Test file found" debug line) are
  dropped from the model.
* Path strings are built with the POSIX separator `/`, matching the
  Linux path of the plugin that the claims exercise.
-/

/-- Kinds of Python exception that can escape the plugin uncaught. -/
inductive PyError where
  /-- NotImplementedError for an unsupported operating system. -/
  | notImplemented
  /-- xml.etree.ElementTree.ParseError from a malformed result document. -/
  | parseError
  /-- KeyError from `case.attrib['name']` when the attribute is missing. -/
  | keyError
  /-- AttributeError from `.groups()` when `re.search` returned None. -/
  | attributeError
  /-- NameError from reading `totalCoverageFile` before assignment. -/
  | nameError
  /-- IndexError from `workspace[-1]` on an empty workspace string. -/
  | indexError
  deriving DecidableEq

/-- Log lines and observable events emitted by the plugin, in order. -/
inductive LogEntry where
  /-- logging.error("UnitTest Execution Error: " + basename). -/
  | errorExec (testBase : String)
  /-- logging.info("UnitTest Completed: " + basename). -/
  | infoCompleted (testBase : String)
  /-- logging.warning("%s Test Failed" % basename). -/
  | warnTestFailed (testBase : String)
  /-- logging.warning("  %s - %s" % (case name, failure text)). -/
  | warnCaseFailure (caseName : String) (text : String)
  /-- logging.warning of the "No unit tests discovered" diagnostic. -/
  | warnNoTests
  /-- logging.info("Skipping code coverage. ...") for other toolchains. -/
  | infoCovSkip
  /-- Event marking an invocation of gen_code_coverage_gcc. -/
  | covGccInvoked
  /-- Event marking an invocation of gen_code_coverage_msvc. -/
  | covMsvcInvoked
  deriving DecidableEq

/-- State threaded through the test loop: `failure_count` and the log. -/
abbrev TallySt := Nat × List LogEntry

/-- An uncaught exception together with the log emitted before it. -/
abbrev Failure := PyError × List LogEntry

/-! ### String helpers (modelling the Python string/path operations) -/

/-- Boolean test for `n` occurring as a contiguous substring of `h`. -/
def subOcc : List Char → List Char → Bool
  | n, [] => n.isEmpty
  | n, c :: t => n.isPrefixOf (c :: t) || subOcc n t

/-- Python `"Test" in s` / the glob pattern `*Test*`. -/
def containsTest (s : String) : Bool :=
  subOcc "Test".data s.data

/-- Boolean test for `suf` being a suffix of `s`. -/
def strEndsWith (s suf : String) : Bool :=
  suf.data.isSuffixOf s.data

/-- os.path.basename for POSIX paths: the part after the last slash. -/
def basename (p : String) : String :=
  ⟨(p.data.reverse.takeWhile (fun c => c ≠ '/')).reverse⟩

/-- Python str.upper, as used on `GetHostInfo().os`. -/
def pyUpper (s : String) : String :=
  ⟨s.data.map Char.toUpper⟩

/-- os.path.join for a POSIX path and a relative second component. -/
def pjoin (a b : String) : String :=
  if a = "" then b else if strEndsWith a "/" then a ++ b else a ++ "/" ++ b

/-- Helper for `pySplit`: split on runs of spaces, accumulator reversed. -/
def pySplitAux : List Char → List Char → List (List Char)
  | [], acc => if acc.isEmpty then [] else [acc.reverse]
  | c :: cs, acc =>
    if c = ' ' then
      if acc.isEmpty then pySplitAux cs [] else acc.reverse :: pySplitAux cs []
    else pySplitAux cs (c :: acc)

/-- Python str.split() with no argument, for space-separated lists
(runs of separators collapse and yield no empty items). -/
def pySplit (s : String) : List String :=
  (pySplitAux s.data []).map (fun l => ⟨l⟩)

/-! ### Test-result XML documents (ResultParser data model) -/

/-- A leaf node of the result tree (child of a case element). -/
structure XmlResult where
  tag : String
  text : String
  deriving DecidableEq

/-- A case element: its `name` attribute (if present) and child nodes.
`nameAttr = none` models a case element with no `name` attribute, so
that `case.attrib['name']` raises KeyError. -/
structure XmlCase where
  nameAttr : Option String
  results : List XmlResult
  deriving DecidableEq

/-- A suite element: the case elements below it. -/
structure XmlSuite where
  cases : List XmlCase
  deriving DecidableEq

/-- A parsed result document: the suite elements below the root. -/
structure XmlDoc where
  suites : List XmlSuite
  deriving DecidableEq

/-- One on-disk result document, as the XML parser sees it. -/
inductive ResultFile where
  /-- Not well-formed XML: `xml.etree.ElementTree.parse` raises. -/
  | malformed
  /-- Well-formed XML with the given element tree. -/
  | wellFormed (doc : XmlDoc)
  deriving DecidableEq

/-! ### The failure tally over one result document

Embeds the triple loop of do_post_build (source lines 130-138):
for suite in root / for case in suite / for result in case,
counting nodes tagged `failure` and logging two warning lines each. -/

/-- Innermost loop: `for result in case`. On a failure node the first
warning is logged, then `case.attrib['name']` is read (KeyError when the
attribute is absent), the second warning is logged and the count grows. -/
def tallyCaseResults (tn : String) (kase : XmlCase) :
    List XmlResult → TallySt → Except Failure TallySt
  | [], st => .ok st
  | r :: rs, st =>
    if r.tag = "failure" then
      let log1 := st.2 ++ [LogEntry.warnTestFailed tn]
      match kase.nameAttr with
      | none => .error (.keyError, log1)
      | some nm =>
        tallyCaseResults tn kase rs
          (st.1 + 1, log1 ++ [LogEntry.warnCaseFailure nm r.text])
    else
      tallyCaseResults tn kase rs st

/-- Middle loop: `for case in suite`. -/
def tallyCases (tn : String) : List XmlCase → TallySt → Except Failure TallySt
  | [], st => .ok st
  | c :: cs, st =>
    match tallyCaseResults tn c c.results st with
    | .error e => .error e
    | .ok st' => tallyCases tn cs st'

/-- Outer loop: `for suite in root`. -/
def tallySuites (tn : String) : List XmlSuite → TallySt → Except Failure TallySt
  | [], st => .ok st
  | s :: ss, st =>
    match tallyCases tn s.cases st with
    | .error e => .error e
    | .ok st' => tallySuites tn ss st'

/-- Parse one result document and tally it.
A malformed document makes `xml.etree.ElementTree.parse` raise a
ParseError, which the source does not catch. -/
def parseResultFile (tn : String) (f : ResultFile) (st : TallySt) :
    Except Failure TallySt :=
  match f with
  | .malformed => .error (.parseError, st.2)
  | .wellFormed d => tallySuites tn d.suites st

/-- Loop over the globbed result documents of one binary. -/
def parseFiles (tn : String) : List ResultFile → TallySt → Except Failure TallySt
  | [], st => .ok st
  | f :: fs, st =>
    match parseResultFile tn f st with
    | .error e => .error e
    | .ok st' => parseFiles tn fs st'

/-! ### Specification-side counting and logging functions -/

/-- Number of `failure`-tagged nodes below one case element. -/
def caseFailures (c : XmlCase) : Nat :=
  (c.results.filter (fun r => r.tag = "failure")).length

/-- Number of `failure`-tagged nodes at the case level of a document. -/
def docFailures (d : XmlDoc) : Nat :=
  (d.suites.map (fun s => (s.cases.map caseFailures).sum)).sum

/-- The two warning lines logged for every failure node of one case. -/
def caseFailLog (tn : String) (c : XmlCase) : List LogEntry :=
  ((c.results.filter (fun r => r.tag = "failure")).map
    (fun r => [LogEntry.warnTestFailed tn,
               LogEntry.warnCaseFailure (c.nameAttr.getD "") r.text])).flatten

/-- The warning lines logged while tallying a whole document. -/
def docFailLog (tn : String) (d : XmlDoc) : List LogEntry :=
  (d.suites.map (fun s => (s.cases.map (caseFailLog tn)).flatten)).flatten

/-! ### Test discovery (do_post_build lines 74-94) -/

/-- stat.S_IEXEC: owner execute permission bit. -/
def S_IEXEC : Nat := 64

/-- stat.S_IXGRP: group execute permission bit. -/
def S_IXGRP : Nat := 8

/-- stat.S_IXOTH: other execute permission bit. -/
def S_IXOTH : Nat := 1

/-- One directory entry of the per-architecture build directory, with
the facts the plugin queries: its glob name (a full path), whether
os.path.isfile holds, and its stat mode bits. -/
structure DirEntry where
  name : String
  isFile : Bool
  mode : Nat
  deriving DecidableEq

/-- glob.glob(os.path.join(cp, "*Test*")): entries whose name contains
the substring "Test". -/
def globLinux (dir : List DirEntry) : List DirEntry :=
  dir.filter (fun e => containsTest e.name)

/-- The Linux discovery loop: the source iterates over a copy of the
glob result and removes entries that are not regular files or have no
execute bit (each removal logs a debug diagnostic only); removing from
a duplicate-free glob list while iterating its copy is a filter. -/
def discoverLinux (dir : List DirEntry) : List DirEntry :=
  (globLinux dir).filter
    (fun e => e.isFile && (e.mode &&& (S_IEXEC ||| S_IXGRP ||| S_IXOTH) != 0))

/-- glob.glob(os.path.join(cp, "*Test*.exe")): entries ending in ".exe"
whose remaining name contains "Test". -/
def globWindows (dir : List DirEntry) : List DirEntry :=
  dir.filter (fun e =>
    strEndsWith e.name ".exe" &&
      subOcc "Test".data (e.name.data.take (e.name.data.length - 4)))

/-! ### Test execution engine (do_post_build lines 108-138) -/

/-- The external world of one architecture's build directory: the
directory entries the globs see, each binary's exit status when
spawned, and the parsed content of each binary's globbed result
documents. -/
structure ArchWorld where
  dirEntries : List DirEntry
  exitCode : String → Int
  resultFiles : String → List ResultFile
  covGccRet : Int
  covMsvcRet : Int

/-- The per-architecture test loop.
For each binary: the CMOCKA/GTEST output variables are set (their values
are modelled by `cmockaXmlFile`/`gtestResultFile` below), the binary is
spawned, a non-zero exit logs an error and counts one failure, a zero
exit logs completion and tallies every globbed result document. -/
def runTests (w : ArchWorld) : List String → TallySt → Except Failure TallySt
  | [], st => .ok st
  | t :: ts, st =>
    if w.exitCode t ≠ 0 then
      runTests w ts (st.1 + 1, st.2 ++ [LogEntry.errorExec (basename t)])
    else
      match parseFiles (basename t) (w.resultFiles t)
          (st.1, st.2 ++ [LogEntry.infoCompleted (basename t)]) with
      | .error e => .error e
      | .ok st' => runTests w ts st'

/-! ### Derived artifact names (the filesystem naming contract) -/

/-- Value written to CMOCKA_XML_FILE (line 111). -/
def cmockaXmlFile (test arch : String) : String :=
  test ++ ".CMOCKA.%g." ++ arch ++ ".result.xml"

/-- Result file named by GTEST_OUTPUT (line 114, after the "xml:" prefix). -/
def gtestResultFile (test arch : String) : String :=
  test ++ ".GTEST." ++ arch ++ ".result.xml"

/-- Glob pattern for one binary's result documents (line 125). -/
def resultGlobPattern (test arch : String) : String :=
  test ++ ".*." ++ arch ++ ".result.xml"

/-! ### The pipeline driver do_post_build -/

/-- Build configuration and host facts read by do_post_build, plus the
per-architecture worlds. -/
structure Builder where
  ciBuildType : String
  targetArch : String
  buildOutputBase : String
  codeCoverage : String
  toolChainTag : String
  hostOS : String
  archWorld : String → ArchWorld

/-- The coverage block at the end of one architecture iteration
(lines 140-150). The two coverage generators are modelled here by their
returned status (`covGccRet`/`covMsvcRet`); their internals are embedded
separately below. An invocation event is recorded in the log. -/
def coverageStep (B : Builder) (w : ArchWorld) (st : TallySt) : TallySt :=
  if B.codeCoverage ≠ "FALSE" then
    if B.toolChainTag = "GCC5" then
      let st := (st.1, st.2 ++ [LogEntry.covGccInvoked])
      if w.covGccRet ≠ 0 then (st.1 + 1, st.2) else st
    else if B.toolChainTag.startsWith "VS" then
      let st := (st.1, st.2 ++ [LogEntry.covMsvcInvoked])
      if w.covMsvcRet ≠ 0 then (st.1 + 1, st.2) else st
    else
      (st.1, st.2 ++ [LogEntry.infoCovSkip])
  else st

/-- One iteration of `for arch in ...` and the rest of the loop
(lines 64-152). Stale-result deletion (lines 70-71) only removes files
and affects no control flow, so it leaves the model state unchanged.
When discovery yields no binaries the source executes `return 0`,
which ends the whole function, not just this architecture. -/
def processArchs (B : Builder) : List String → TallySt →
    Except Failure (Nat × List LogEntry)
  | [], st => .ok st
  | arch :: rest, st =>
    let w := B.archWorld arch
    let disc : Except Failure (List String) :=
      if pyUpper B.hostOS = "LINUX" then
        .ok ((discoverLinux w.dirEntries).map (fun e => e.name))
      else if pyUpper B.hostOS = "WINDOWS" then
        .ok ((globWindows w.dirEntries).map (fun e => e.name))
      else
        .error (.notImplemented, st.2)
    match disc with
    | .error e => .error e
    | .ok testList =>
      if testList.isEmpty then
        .ok (0, st.2 ++ [LogEntry.warnNoTests])
      else
        match runTests w testList st with
        | .error e => .error e
        | .ok st' => processArchs B rest (coverageStep B w st')

/-- do_post_build: gate on CI_BUILD_TYPE, then process every
architecture of TARGET_ARCH, returning the accumulated failure count
(and, in the model, the log). -/
def do_post_build (B : Builder) : Except Failure (Nat × List LogEntry) :=
  if B.ciBuildType ≠ "host_unit_test" then .ok (0, [])
  else processArchs B (pySplit B.targetArch) (0, [])

/-! ### get_lcov_version (lines 154-161)

The call `re.search(r"version (\d+)\.(\d+)", out)` is embedded as a
left-to-right scan for the literal "version " followed by one or more
digits, a dot, and one or more digits; the first (greedy) digit group is
the major version. When no position matches, `re.search` returns None and
the subsequent `.groups()` raises AttributeError. -/

/-- Split off the maximal leading run of decimal digits. -/
def takeDigits : List Char → List Char × List Char
  | [] => ([], [])
  | c :: cs =>
    if c.isDigit then
      let p := takeDigits cs
      (c :: p.1, p.2)
    else ([], c :: cs)

/-- Python int() of a non-empty decimal digit string. -/
def digitsToNat (ds : List Char) : Nat :=
  ds.foldl (fun a c => a * 10 + (c.toNat - 48)) 0

/-- Match the version pattern anchored at the start of `cs`, returning
the major number on success. -/
def matchVersionAt (cs : List Char) : Option Nat :=
  if "version ".data.isPrefixOf cs then
    let p1 := takeDigits (cs.drop 8)
    if p1.1.isEmpty then none
    else
      match p1.2 with
      | '.' :: r2 => if (takeDigits r2).1.isEmpty then none else some (digitsToNat p1.1)
      | _ => none
  else none

/-- re.search: try every start position from the left. -/
def searchVersion : List Char → Option Nat
  | [] => none
  | c :: cs =>
    match matchVersionAt (c :: cs) with
    | some m => some m
    | none => searchVersion cs

/-- External facts consumed by the GCC coverage pipeline: the exit
status of every spawned command, the text captured from
`lcov --version`, the recursive glob of `total-coverage.info` files
under the workspace Build tree, and whether a stale workspace
`coverage.xml` exists (its deletion is a pure filesystem effect). -/
structure CovWorld where
  run : String → String → Int
  lcovVersionOut : String
  totalCoverageGlob : List String
  coverageXmlExists : Bool

/-- get_lcov_version: a non-zero exit from `lcov --version` yields None;
otherwise the output is searched and a failed search raises. -/
def get_lcov_version (w : CovWorld) : Except PyError (Option Nat) :=
  if w.run "lcov" "--version" ≠ 0 then .ok none
  else
    match searchVersion w.lcovVersionOut.data with
    | none => .error .attributeError
    | some maj => .ok (some maj)

/-! ### gen_code_coverage_gcc (lines 164-224) -/

/-- The version-query command issued by get_lcov_version. -/
def versionCmd : String × String := ("lcov", "--version")

/-- lcov_error_settings (line 178). -/
def lcovErrorSettings (major : Nat) : String :=
  if major ≥ 2 then "--ignore-errors mismatch" else ""

/-- Arguments of the initial-capture lcov stage (line 179). -/
def gccStage1Args (b les : String) : String :=
  s!"--no-external --capture --initial --directory {b} --output-file {b}/cov-base.info --rc lcov_branch_coverage=1 {les}"

/-- Arguments of the test-capture lcov stage (line 185). -/
def gccStage2Args (b les : String) : String :=
  s!"--capture --directory {b}/ --output-file {b}/coverage-test.info --rc lcov_branch_coverage=1 {les}"

/-- Arguments of the aggregate lcov stage (line 191). -/
def gccStage3Args (b les : String) : String :=
  s!"--add-tracefile {b}/cov-base.info --add-tracefile {b}/coverage-test.info --output-file {b}/total-coverage.info --rc lcov_branch_coverage=1 {les}"

/-- Arguments of the unfiltered lcov_cobertura stage (line 197). -/
def gccStage4Args (b : String) : String :=
  s!"{b}/total-coverage.info -o {b}/compare.xml"

/-- Arguments of the filtered lcov_cobertura stage (line 203). -/
def gccStage5Args (b : String) : String :=
  s!"{b}/total-coverage.info --excludes ^.*UnitTest\\|^.*MU\\|^.*Mock\\|^.*DEBUG -o {b}/coverage.xml"

/-- The accumulated `--add-tracefile` argument string (lines 211-213). -/
def gccCoverageFileArg (globbed : List String) : String :=
  globbed.foldl (fun acc t => acc ++ " --add-tracefile " ++ t) ""

/-- Arguments of the workspace-aggregate lcov stage (line 214). -/
def gccStage6Args (coverageFile ws les : String) : String :=
  s!"{coverageFile} --output-file {ws}/Build/all-coverage.info --rc lcov_branch_coverage=1 {les}"

/-- Arguments of the final workspace lcov_cobertura stage (line 222). -/
def gccStage7Args (ws : String) : String :=
  s!"{ws}/Build/all-coverage.info --excludes ^.*UnitTest\\|^.*MU\\|^.*Mock\\|^.*DEBUG -o {ws}/Build/coverage.xml"

/-- gen_code_coverage_gcc. The returned pair is the function's return
value and the ordered trace of spawned commands. `if not
lcov_version_major` treats both None and 0 as falsy. The exit status of
the final stage is assigned to `ret` in the source but never checked:
the function returns 0 regardless. -/
def gen_code_coverage_gcc (w : CovWorld) (b ws : String) :
    Except PyError (Int × List (String × String)) :=
  match get_lcov_version w with
  | .error e => .error e
  | .ok verOpt =>
    match verOpt with
    | none => .ok (1, [versionCmd])
    | some major =>
      if major = 0 then .ok (1, [versionCmd])
      else
        let les := lcovErrorSettings major
        let c1 : String × String := ("lcov", gccStage1Args b les)
        if w.run c1.1 c1.2 ≠ 0 then .ok (1, [versionCmd, c1])
        else
          let c2 : String × String := ("lcov", gccStage2Args b les)
          if w.run c2.1 c2.2 ≠ 0 then .ok (1, [versionCmd, c1, c2])
          else
            let c3 : String × String := ("lcov", gccStage3Args b les)
            if w.run c3.1 c3.2 ≠ 0 then .ok (1, [versionCmd, c1, c2, c3])
            else
              let c4 : String × String := ("lcov_cobertura", gccStage4Args b)
              if w.run c4.1 c4.2 ≠ 0 then .ok (1, [versionCmd, c1, c2, c3, c4])
              else
                let c5 : String × String := ("lcov_cobertura", gccStage5Args b)
                if w.run c5.1 c5.2 ≠ 0 then .ok (1, [versionCmd, c1, c2, c3, c4, c5])
                else
                  let c6 : String × String :=
                    ("lcov", gccStage6Args (gccCoverageFileArg w.totalCoverageGlob) ws les)
                  if w.run c6.1 c6.2 ≠ 0 then .ok (1, [versionCmd, c1, c2, c3, c4, c5, c6])
                  else
                    let c7 : String × String := ("lcov_cobertura", gccStage7Args ws)
                    .ok (0, [versionCmd, c1, c2, c3, c4, c5, c6, c7])

/-! ### gen_code_coverage_msvc (lines 227-297)

OpenCppCoverage's `--export_type binary:<path>` writes `<path>` when the
command succeeds; the model tracks those paths in a `created` list so
that later `os.path.isfile` checks see them. -/

/-- External facts consumed by the MSVC coverage pipeline. -/
structure MsvcWorld where
  run : String → String → Int
  testExeGlob : List String
  covGlob : List String
  isfile0 : String → Bool

/-- os.path.isfile after the coverage files in `created` were written. -/
def isfileAfter (w : MsvcWorld) (created : List String) (p : String) : Bool :=
  w.isfile0 p || created.contains p

/-- Arguments of a per-test OpenCppCoverage capture (line 239). -/
def msvcCaptureArgs (ws t : String) : String :=
  s!"--source {ws} --export_type binary:{t}.cov -- {t}"

/-- Arguments of an OpenCppCoverage merge (lines 248-253 and 277-282). -/
def msvcMergeArgs (total wsBuild covFile : String) : String :=
  s!"--export_type binary:{total} --working_dir={wsBuild} {covFile}"

/-- Arguments of the package cobertura export (lines 259-264); the
source leaves a trailing space after the input file. -/
def msvcExportArgs1 (covXml wsBuild total : String) : String :=
  s!"--export_type cobertura:{covXml} --working_dir={wsBuild} --input_coverage={total} "

/-- Arguments of the workspace cobertura export (lines 287-292). -/
def msvcExportArgs2 (covXml wsBuild total : String) : String :=
  s!"--export_type cobertura:{covXml} --working_dir={wsBuild} --input_coverage={total}"

/-- The `coverageFile` argument rebuilt per iteration of the per-test
loop (lines 244-247): the fresh snapshot, plus the running aggregate
when it already exists on disk. -/
def msvcTestCovFile (w : MsvcWorld) (created1 : List String) (t total : String) : String :=
  " --input_coverage=" ++ t ++ ".cov" ++
    (if isfileAfter w created1 total then " --input_coverage=" ++ total else "")

/-- The `coverageFile` argument rebuilt per iteration of the workspace
merge loop (lines 274-276). -/
def msvcCovCovFile (w : MsvcWorld) (created : List String) (t total : String) : String :=
  " --input_coverage=" ++ t ++
    (if isfileAfter w created total then " --input_coverage=" ++ total else "")

/-- The per-test capture-and-merge loop (lines 238-256). The returned
Option is `some 1` when the loop body executed `return 1`. -/
def msvcTestLoop (w : MsvcWorld) (ws wsBuild b : String) :
    List String → List String → List (String × String) →
    Option Int × List String × List (String × String)
  | [], created, tr => (none, created, tr)
  | t :: rest, created, tr =>
    let cap : String × String := ("OpenCppCoverage", msvcCaptureArgs ws t)
    if w.run cap.1 cap.2 ≠ 0 then (some 1, created, tr ++ [cap])
    else
      let created1 := created ++ [t ++ ".cov"]
      let total := pjoin b "coverage.cov"
      let mrg : String × String :=
        ("OpenCppCoverage", msvcMergeArgs total wsBuild (msvcTestCovFile w created1 t total))
      if w.run mrg.1 mrg.2 ≠ 0 then (some 1, created1, tr ++ [cap, mrg])
      else msvcTestLoop w ws wsBuild b rest (created1 ++ [total]) (tr ++ [cap, mrg])

/-- The workspace-snapshot merge loop (lines 273-285). -/
def msvcCovLoop (w : MsvcWorld) (wsBuild total : String) :
    List String → List String → List (String × String) →
    Option Int × List String × List (String × String)
  | [], created, tr => (none, created, tr)
  | t :: rest, created, tr =>
    let mrg : String × String :=
      ("OpenCppCoverage", msvcMergeArgs total wsBuild (msvcCovCovFile w created t total))
    if w.run mrg.1 mrg.2 ≠ 0 then (some 1, created, tr ++ [mrg])
    else msvcCovLoop w wsBuild total rest (created ++ [total]) (tr ++ [mrg])

/-- The normalized workspace root with a trailing separator (line 234). -/
def msvcWs (workspace : String) : String :=
  if ¬ strEndsWith workspace "/" then workspace ++ "/" else workspace

/-- workspaceBuild = os.path.join(workspace, 'Build') (line 235). -/
def msvcWsBuild (workspace : String) : String :=
  pjoin (msvcWs workspace) "Build"

/-- The package cobertura export command (lines 259-264). -/
def msvcExp1Cmd (b workspace : String) : String × String :=
  ("OpenCppCoverage",
    msvcExportArgs1 (pjoin b "coverage.xml") (msvcWsBuild workspace) (pjoin b "coverage.cov"))

/-- The workspace cobertura export command (lines 287-292). -/
def msvcExp2Cmd (workspace : String) : String × String :=
  ("OpenCppCoverage",
    msvcExportArgs2 (pjoin (msvcWsBuild workspace) "coverage.xml") (msvcWsBuild workspace)
      (pjoin (msvcWsBuild workspace) "coverage.cov"))

/-- gen_code_coverage_msvc. `workspace[-1]` raises IndexError on an
empty workspace; when the test glob is empty the loop body never ran,
so `totalCoverageFile` is unbound and line 263 raises NameError. -/
def gen_code_coverage_msvc (w : MsvcWorld) (b workspace : String) :
    Except PyError (Int × List (String × String)) :=
  if workspace = "" then .error .indexError
  else
    match msvcTestLoop w (msvcWs workspace) (msvcWsBuild workspace) b w.testExeGlob [] [] with
    | (some rv, _, tr) => .ok (rv, tr)
    | (none, created, tr) =>
      if w.testExeGlob.isEmpty then .error .nameError
      else
        if w.run (msvcExp1Cmd b workspace).1 (msvcExp1Cmd b workspace).2 ≠ 0 then
          .ok (1, tr ++ [msvcExp1Cmd b workspace])
        else
          match msvcCovLoop w (msvcWsBuild workspace)
              (pjoin (msvcWsBuild workspace) "coverage.cov") w.covGlob created
              (tr ++ [msvcExp1Cmd b workspace]) with
          | (some rv, _, tr2) => .ok (rv, tr2)
          | (none, _, tr2) =>
            if w.run (msvcExp2Cmd workspace).1 (msvcExp2Cmd workspace).2 ≠ 0 then
              .ok (1, tr2 ++ [msvcExp2Cmd workspace])
            else .ok (0, tr2 ++ [msvcExp2Cmd workspace])

/-! ### General helper lemmas -/

/-- Strings with equal character lists are equal. -/
theorem strExt {s t : String} (h : s.data = t.data) : s = t := by
  cases s; cases t; cases h; rfl

/-- subOcc decides occurrence as a contiguous substring. -/
theorem subOcc_iff (n h : List Char) :
    subOcc n h = true ↔ ∃ p q, h = p ++ n ++ q := by
  induction h with
  | nil =>
    simp only [subOcc, List.isEmpty_iff]
    constructor
    · rintro rfl; exact ⟨[], [], rfl⟩
    · rintro ⟨p, q, hpq⟩
      rcases List.append_eq_nil.mp hpq.symm with ⟨h1, _⟩
      exact (List.append_eq_nil.mp h1).2
  | cons c t ih =>
    simp only [subOcc, Bool.or_eq_true]
    constructor
    · rintro (hpre | hsub)
      · obtain ⟨q, hq⟩ := List.isPrefixOf_iff_prefix.mp hpre
        exact ⟨[], q, by simp [hq.symm]⟩
      · obtain ⟨p, q, rfl⟩ := ih.mp hsub
        exact ⟨c :: p, q, rfl⟩
    · rintro ⟨p, q, hpq⟩
      cases p with
      | nil =>
        left
        exact List.isPrefixOf_iff_prefix.mpr ⟨q, by simpa using hpq.symm⟩
      | cons x p' =>
        right
        apply ih.mpr
        simp only [List.cons_append, List.cons.injEq] at hpq
        exact ⟨p', q, hpq.2⟩

/-- A pattern occurs in any list that ends with it. -/
theorem subOcc_append_self (n a : List Char) : subOcc n (a ++ n) = true :=
  (subOcc_iff n (a ++ n)).mpr ⟨a, [], by simp⟩

/-- takeWhile of a list that satisfies the predicate up to a stopper. -/
theorem takeWhile_append_stop {α : Type} (p : α → Bool) (l1 : List α) (c : α)
    (l2 : List α) (h1 : ∀ x ∈ l1, p x = true) (hc : p c = false) :
    (l1 ++ c :: l2).takeWhile p = l1 := by
  induction l1 with
  | nil => simp [List.takeWhile, hc]
  | cons x xs ih => simp_all [List.takeWhile]

/-- A traced command that failed must be the last command of the trace,
provided every traced command but the last succeeded. -/
theorem traced_fail_last (run : String → String → Int)
    (tr pre post : List (String × String)) (x : String × String)
    (hdec : tr = pre ++ x :: post)
    (hgood : ∀ y ∈ tr.dropLast, run y.1 y.2 = 0)
    (hbad : run x.1 x.2 ≠ 0) : post = [] := by
  by_contra hpost
  apply hbad
  apply hgood
  subst hdec
  rw [List.dropLast_append_of_ne_nil _ (by simp)]
  cases post with
  | nil => exact absurd rfl hpost
  | cons b bs => simp

/-! ### Characterization of the tally loop on documents with named cases -/

/-- A document in which every case that contains a failure node carries
a `name` attribute (the shape the result schema guarantees). -/
def NamedOK (d : XmlDoc) : Prop :=
  ∀ s ∈ d.suites, ∀ c ∈ s.cases,
    (∃ r ∈ c.results, r.tag = "failure") → c.nameAttr.isSome

/-- Tally of the result list of a case whose name attribute is present. -/
theorem tallyCaseResults_named (tn : String) (c : XmlCase) (nm : String)
    (h : c.nameAttr = some nm) :
    ∀ rs fc log, tallyCaseResults tn c rs (fc, log) =
      .ok (fc + (rs.filter (fun r => r.tag = "failure")).length,
        log ++ ((rs.filter (fun r => r.tag = "failure")).map
          (fun r => [LogEntry.warnTestFailed tn,
                     LogEntry.warnCaseFailure nm r.text])).flatten) := by
  intro rs
  induction rs with
  | nil => intro fc log; simp [tallyCaseResults]
  | cons r rs ih =>
    intro fc log
    by_cases hf : r.tag = "failure"
    · have hfR : (r :: rs).filter (fun x => decide (x.tag = "failure")) =
          r :: rs.filter (fun x => decide (x.tag = "failure")) := by
        simp [hf]
      simp only [tallyCaseResults, hf, if_pos, h, ih, hfR, List.map_cons,
        List.flatten_cons, List.length_cons, Except.ok.injEq, Prod.mk.injEq]
      constructor
      · omega
      · simp [List.append_assoc]
    · simp [tallyCaseResults, hf, ih]

/-- Tally of a result list with no failure nodes: state unchanged. -/
theorem tallyCaseResults_nofail (tn : String) (c : XmlCase) :
    ∀ rs st, (∀ r ∈ rs, r.tag ≠ "failure") →
      tallyCaseResults tn c rs st = .ok st := by
  intro rs
  induction rs with
  | nil => intro st _; simp [tallyCaseResults]
  | cons r rs ih =>
    intro st hno
    have hr : r.tag ≠ "failure" := hno r (by simp)
    simp only [tallyCaseResults, if_neg hr]
    exact ih st (fun x hx => hno x (by simp [hx]))

/-- Tally of a case list in which failing cases are named. -/
theorem tallyCases_ok (tn : String) :
    ∀ cs fc log,
      (∀ c ∈ cs, (∃ r ∈ c.results, r.tag = "failure") → c.nameAttr.isSome) →
      tallyCases tn cs (fc, log) =
        .ok (fc + (cs.map caseFailures).sum,
             log ++ (cs.map (caseFailLog tn)).flatten) := by
  intro cs
  induction cs with
  | nil => intro fc log _; simp [tallyCases]
  | cons c cs ih =>
    intro fc log hnm
    cases hna : c.nameAttr with
    | some nm =>
      have hstep := tallyCaseResults_named tn c nm hna c.results fc log
      simp only [tallyCases, hstep]
      rw [ih _ _ (fun x hx hex => hnm x (by simp [hx]) hex)]
      have hlog : caseFailLog tn c =
          ((c.results.filter (fun r => r.tag = "failure")).map
            (fun r => [LogEntry.warnTestFailed tn,
                       LogEntry.warnCaseFailure nm r.text])).flatten := by
        simp [caseFailLog, hna]
      simp [caseFailures, hlog, List.append_assoc]
      omega
    | none =>
      have hnofail : ∀ r ∈ c.results, r.tag ≠ "failure" := by
        intro r hr hf
        have := hnm c (by simp) ⟨r, hr, hf⟩
        simp [hna] at this
      have hstep := tallyCaseResults_nofail tn c c.results (fc, log) hnofail
      simp only [tallyCases, hstep]
      rw [ih _ _ (fun x hx hex => hnm x (by simp [hx]) hex)]
      have hfilter : c.results.filter (fun r => r.tag = "failure") = [] :=
        List.filter_eq_nil_iff.mpr (by intro a ha; simp [hnofail a ha])
      have hcf : caseFailures c = 0 := by simp [caseFailures, hfilter]
      have hcl : caseFailLog tn c = [] := by simp [caseFailLog, hfilter]
      simp [hcf, hcl]

/-- Tally of a suite list in which failing cases are named. -/
theorem tallySuites_ok (tn : String) :
    ∀ ss fc log,
      (∀ s ∈ ss, ∀ c ∈ s.cases,
        (∃ r ∈ c.results, r.tag = "failure") → c.nameAttr.isSome) →
      tallySuites tn ss (fc, log) =
        .ok (fc + (ss.map (fun s => (s.cases.map caseFailures).sum)).sum,
             log ++ (ss.map (fun s => (s.cases.map (caseFailLog tn)).flatten)).flatten) := by
  intro ss
  induction ss with
  | nil => intro fc log _; simp [tallySuites]
  | cons s ss ih =>
    intro fc log hnm
    have hstep := tallyCases_ok tn s.cases fc log (fun c hc => hnm s (by simp) c hc)
    simp only [tallySuites, hstep]
    rw [ih _ _ (fun x hx => hnm x (by simp [hx]))]
    simp [List.append_assoc]
    omega

/-! ### Error behaviour of the tally loop -/

/-- A nameless case with a failure node makes the result loop raise
KeyError, after the first warning line was logged. -/
theorem tallyCaseResults_err (tn : String) (c : XmlCase)
    (hna : c.nameAttr = none) :
    ∀ rs st, (∃ r ∈ rs, r.tag = "failure") →
      ∃ l, tallyCaseResults tn c rs st = .error (.keyError, l) ∧
        LogEntry.warnTestFailed tn ∈ l := by
  intro rs
  induction rs with
  | nil => intro st h; simp at h
  | cons r rs ih =>
    intro st hex
    by_cases hf : r.tag = "failure"
    · refine ⟨st.2 ++ [LogEntry.warnTestFailed tn], ?_, by simp⟩
      simp [tallyCaseResults, hf, hna]
    · have : ∃ x ∈ rs, x.tag = "failure" := by
        rcases hex with ⟨x, hx, hxf⟩
        rcases List.mem_cons.mp hx with rfl | hmem
        · exact absurd hxf hf
        · exact ⟨x, hmem, hxf⟩
      simpa [tallyCaseResults, hf] using ih st this

/-- The result loop either completes or raises KeyError with the first
warning line already logged. -/
theorem tallyCaseResults_split (tn : String) (c : XmlCase) :
    ∀ rs st, (∃ st', tallyCaseResults tn c rs st = .ok st') ∨
      (∃ l, tallyCaseResults tn c rs st = .error (.keyError, l) ∧
        LogEntry.warnTestFailed tn ∈ l) := by
  intro rs
  induction rs with
  | nil => intro st; exact .inl ⟨st, by simp [tallyCaseResults]⟩
  | cons r rs ih =>
    intro st
    by_cases hf : r.tag = "failure"
    · cases hna : c.nameAttr with
      | none =>
        refine .inr ⟨st.2 ++ [LogEntry.warnTestFailed tn], ?_, by simp⟩
        simp [tallyCaseResults, hf, hna]
      | some nm =>
        rcases ih (st.1 + 1,
            st.2 ++ [LogEntry.warnTestFailed tn, LogEntry.warnCaseFailure nm r.text]) with
          ⟨st', hst⟩ | ⟨l, hl, hm⟩
        · exact .inl ⟨st', by simp [tallyCaseResults, hf, hna, hst]⟩
        · exact .inr ⟨l, by simp [tallyCaseResults, hf, hna, hl], hm⟩
    · rcases ih st with ⟨st', hst⟩ | ⟨l, hl, hm⟩
      · exact .inl ⟨st', by simp [tallyCaseResults, hf, hst]⟩
      · exact .inr ⟨l, by simp [tallyCaseResults, hf, hl], hm⟩

/-- A suite containing a nameless failing case makes the case loop
raise KeyError. -/
theorem tallyCases_err (tn : String) :
    ∀ cs st, (∃ c ∈ cs, c.nameAttr = none ∧ ∃ r ∈ c.results, r.tag = "failure") →
      ∃ l, tallyCases tn cs st = .error (.keyError, l) ∧
        LogEntry.warnTestFailed tn ∈ l := by
  intro cs
  induction cs with
  | nil => intro st h; simp at h
  | cons c cs ih =>
    intro st hex
    rcases tallyCaseResults_split tn c c.results st with ⟨st', hst⟩ | ⟨l, hl, hm⟩
    · rcases hex with ⟨x, hx, hxa, hxf⟩
      rcases List.mem_cons.mp hx with rfl | hmem
      · rcases tallyCaseResults_err tn x hxa x.results st hxf with ⟨l, hl, hm⟩
        rw [hst] at hl
        cases hl
      · rcases ih st' ⟨x, hmem, hxa, hxf⟩ with ⟨l, hl, hm⟩
        exact ⟨l, by simp [tallyCases, hst, hl], hm⟩
    · exact ⟨l, by simp [tallyCases, hl], hm⟩

/-- The case loop either completes or raises KeyError with the first
warning line already logged. -/
theorem tallyCases_split (tn : String) :
    ∀ cs st, (∃ st', tallyCases tn cs st = .ok st') ∨
      (∃ l, tallyCases tn cs st = .error (.keyError, l) ∧
        LogEntry.warnTestFailed tn ∈ l) := by
  intro cs
  induction cs with
  | nil => intro st; exact .inl ⟨st, by simp [tallyCases]⟩
  | cons c cs ih =>
    intro st
    rcases tallyCaseResults_split tn c c.results st with ⟨st', hst⟩ | ⟨l, hl, hm⟩
    · rcases ih st' with ⟨st'', hst'⟩ | ⟨l, hl, hm⟩
      · exact .inl ⟨st'', by simp [tallyCases, hst, hst']⟩
      · exact .inr ⟨l, by simp [tallyCases, hst, hl], hm⟩
    · exact .inr ⟨l, by simp [tallyCases, hl], hm⟩

/-- A document containing a nameless failing case makes the suite loop
raise KeyError. -/
theorem tallySuites_err (tn : String) :
    ∀ ss st,
      (∃ s ∈ ss, ∃ c ∈ s.cases, c.nameAttr = none ∧ ∃ r ∈ c.results, r.tag = "failure") →
      ∃ l, tallySuites tn ss st = .error (.keyError, l) ∧
        LogEntry.warnTestFailed tn ∈ l := by
  intro ss
  induction ss with
  | nil => intro st h; simp at h
  | cons s ss ih =>
    intro st hex
    rcases tallyCases_split tn s.cases st with ⟨st', hst⟩ | ⟨l, hl, hm⟩
    · rcases hex with ⟨x, hx, hxc⟩
      rcases List.mem_cons.mp hx with rfl | hmem
      · rcases tallyCases_err tn x.cases st hxc with ⟨l, hl, hm⟩
        rw [hst] at hl
        cases hl
      · rcases ih st' ⟨x, hmem, hxc⟩ with ⟨l, hl, hm⟩
        exact ⟨l, by simp [tallySuites, hst, hl], hm⟩
    · exact ⟨l, by simp [tallySuites, hl], hm⟩

/-- A malformed document in the globbed list (all well-formed ones
having named failing cases) makes the file loop raise ParseError. -/
theorem parseFiles_malformed (tn : String) :
    ∀ fs st, ResultFile.malformed ∈ fs →
      (∀ d, ResultFile.wellFormed d ∈ fs → NamedOK d) →
      ∃ l, parseFiles tn fs st = .error (.parseError, l) := by
  intro fs
  induction fs with
  | nil => intro st h; simp at h
  | cons f fs ih =>
    intro st hm hn
    cases f with
    | malformed => exact ⟨st.2, by simp [parseFiles, parseResultFile]⟩
    | wellFormed d =>
      obtain ⟨fc, log⟩ := st
      have hd : NamedOK d := hn d (by simp)
      have hstep := tallySuites_ok tn d.suites fc log hd
      have hm' : ResultFile.malformed ∈ fs := by
        rcases List.mem_cons.mp hm with h | h
        · cases h
        · exact h
      rcases ih (fc + (d.suites.map (fun s => (s.cases.map caseFailures).sum)).sum,
          log ++ (d.suites.map (fun s => (s.cases.map (caseFailLog tn)).flatten)).flatten)
          hm' (fun d' hd' => hn d' (by simp [hd'])) with ⟨l, hl⟩
      exact ⟨l, by simp [parseFiles, parseResultFile, hstep, hl]⟩

/-- runTests only inspects the world at the binaries of its list. -/
theorem runTests_congr (w1 w2 : ArchWorld) :
    ∀ l st,
      (∀ x ∈ l, w1.exitCode x = w2.exitCode x ∧ w1.resultFiles x = w2.resultFiles x) →
      runTests w1 l st = runTests w2 l st := by
  intro l
  induction l with
  | nil => intro st _; simp [runTests]
  | cons t ts ih =>
    intro st h
    have ht := h t (by simp)
    have hts : ∀ x ∈ ts, w1.exitCode x = w2.exitCode x ∧
        w1.resultFiles x = w2.resultFiles x :=
      fun x hx => h x (by simp [hx])
    by_cases he : w2.exitCode t ≠ 0
    · simp only [runTests, ht.1, if_pos he, ht.2]
      exact ih _ hts
    · simp only [runTests, ht.1, if_neg he, ht.2]
      cases parseFiles (basename t) (w2.resultFiles t)
          (st.1, st.2 ++ [LogEntry.infoCompleted (basename t)]) with
      | error e => rfl
      | ok st' => exact ih _ hts

/-! ### Fail-fast structure of the GCC coverage pipeline -/

/-- When get_lcov_version parses a version, the version query itself
exited with status 0. -/
theorem lcov_version_some_run_zero (w : CovWorld) (m : Nat)
    (h : get_lcov_version w = .ok (some m)) : w.run "lcov" "--version" = 0 := by
  unfold get_lcov_version at h
  by_cases hr : w.run "lcov" "--version" = 0
  · exact hr
  · simp [hr] at h

theorem gcc_ok_inv (w : CovWorld) (b ws : String) (r : Int) (tr : List (String × String))
    (h : gen_code_coverage_gcc w b ws = .ok (r, tr)) :
    (∀ y ∈ tr.dropLast, w.run y.1 y.2 = 0) ∧ (r = 0 → tr.length = 8) := by
  unfold gen_code_coverage_gcc at h
  split at h
  · exact absurd h (by simp)
  · rename_i verOpt heq
    cases verOpt with
    | none =>
      simp only [Except.ok.injEq, Prod.mk.injEq] at h
      obtain ⟨rfl, rfl⟩ := h
      simp
    | some major =>
      have hrun0 := lcov_version_some_run_zero w major heq
      split at h
      · rename_i hq; exact absurd hq (by simp)
      · rename_i maj hq
        injection hq with hq2
        subst hq2
        split at h
        · simp only [Except.ok.injEq, Prod.mk.injEq] at h
          obtain ⟨rfl, rfl⟩ := h
          simp_all [versionCmd]
        · simp only [ne_eq] at h
          split at h
          · simp only [Except.ok.injEq, Prod.mk.injEq] at h
            obtain ⟨rfl, rfl⟩ := h
            simp_all [versionCmd]
          · 
            split at h
            · simp only [Except.ok.injEq, Prod.mk.injEq] at h
              obtain ⟨rfl, rfl⟩ := h
              simp_all [versionCmd]
            · 
              split at h
              · simp only [Except.ok.injEq, Prod.mk.injEq] at h
                obtain ⟨rfl, rfl⟩ := h
                simp_all [versionCmd]
              · 
                split at h
                · simp only [Except.ok.injEq, Prod.mk.injEq] at h
                  obtain ⟨rfl, rfl⟩ := h
                  simp_all [versionCmd]
                · 
                  split at h
                  · simp only [Except.ok.injEq, Prod.mk.injEq] at h
                    obtain ⟨rfl, rfl⟩ := h
                    simp_all [versionCmd]
                  · 
                    split at h
                    · simp only [Except.ok.injEq, Prod.mk.injEq] at h
                      obtain ⟨rfl, rfl⟩ := h
                      simp_all [versionCmd]
                    · 
                      simp only [Except.ok.injEq, Prod.mk.injEq] at h
                      obtain ⟨rfl, rfl⟩ := h
                      simp_all [versionCmd]

/-! ### Fail-fast structure of the MSVC coverage pipeline -/

/-- dropLast of a list extended by two elements. -/
theorem dropLast_app_two {α : Type} (l : List α) (a b : α) :
    (l ++ [a, b]).dropLast = l ++ [a] := by
  rw [show l ++ [a, b] = (l ++ [a]) ++ [b] by simp]
  simp

/-- When the per-test loop returned early, every traced command but the
last succeeded and the early return value is 1. -/
theorem msvcTestLoop_fail (w : MsvcWorld) (ws wsBuild b : String) :
    ∀ tests created tr rv created' tr',
      msvcTestLoop w ws wsBuild b tests created tr = (some rv, created', tr') →
      (∀ y ∈ tr, w.run y.1 y.2 = 0) →
      (∀ y ∈ tr'.dropLast, w.run y.1 y.2 = 0) ∧ rv = 1 := by
  intro tests
  induction tests with
  | nil => intro created tr rv created' tr' h _; simp [msvcTestLoop] at h
  | cons t ts ih =>
    intro created tr rv created' tr' h hall
    simp only [msvcTestLoop] at h
    split at h
    · simp only [Prod.mk.injEq, Option.some.injEq] at h
      obtain ⟨rfl, rfl, rfl⟩ := h
      refine ⟨?_, rfl⟩
      simpa using hall
    · rename_i hcap
      split at h
      · rename_i hmrg
        simp only [Prod.mk.injEq, Option.some.injEq] at h
        obtain ⟨rfl, rfl, rfl⟩ := h
        refine ⟨?_, rfl⟩
        rw [dropLast_app_two]
        intro y hy
        rcases List.mem_append.mp hy with hy | hy
        · exact hall y hy
        · simp at hy; subst hy; simpa using not_not.mp hcap
      · rename_i hmrg
        refine ih _ _ rv created' tr' h ?_
        intro y hy
        rcases List.mem_append.mp hy with hy | hy
        · exact hall y hy
        · rcases List.mem_cons.mp hy with rfl | hy
          · simpa using not_not.mp hcap
          · simp at hy; subst hy; simpa using not_not.mp hmrg

/-- When the per-test loop completed, every traced command succeeded. -/
theorem msvcTestLoop_ok (w : MsvcWorld) (ws wsBuild b : String) :
    ∀ tests created tr created' tr',
      msvcTestLoop w ws wsBuild b tests created tr = (none, created', tr') →
      (∀ y ∈ tr, w.run y.1 y.2 = 0) →
      ∀ y ∈ tr', w.run y.1 y.2 = 0 := by
  intro tests
  induction tests with
  | nil =>
    intro created tr created' tr' h hall
    simp only [msvcTestLoop, Prod.mk.injEq] at h
    obtain ⟨rfl, rfl⟩ := h.2
    exact hall
  | cons t ts ih =>
    intro created tr created' tr' h hall
    simp only [msvcTestLoop] at h
    split at h
    · simp at h
    · rename_i hcap
      split at h
      · simp at h
      · rename_i hmrg
        refine ih _ _ created' tr' h ?_
        intro y hy
        rcases List.mem_append.mp hy with hy | hy
        · exact hall y hy
        · rcases List.mem_cons.mp hy with rfl | hy
          · simpa using not_not.mp hcap
          · simp at hy; subst hy; simpa using not_not.mp hmrg

/-- When the workspace merge loop returned early, every traced command
but the last succeeded and the early return value is 1. -/
theorem msvcCovLoop_fail (w : MsvcWorld) (wsBuild total : String) :
    ∀ covs created tr rv created' tr',
      msvcCovLoop w wsBuild total covs created tr = (some rv, created', tr') →
      (∀ y ∈ tr, w.run y.1 y.2 = 0) →
      (∀ y ∈ tr'.dropLast, w.run y.1 y.2 = 0) ∧ rv = 1 := by
  intro covs
  induction covs with
  | nil => intro created tr rv created' tr' h _; simp [msvcCovLoop] at h
  | cons t ts ih =>
    intro created tr rv created' tr' h hall
    simp only [msvcCovLoop] at h
    split at h
    · simp only [Prod.mk.injEq, Option.some.injEq] at h
      obtain ⟨rfl, rfl, rfl⟩ := h
      refine ⟨?_, rfl⟩
      simpa using hall
    · rename_i hmrg
      refine ih _ _ rv created' tr' h ?_
      intro y hy
      rcases List.mem_append.mp hy with hy | hy
      · exact hall y hy
      · simp at hy; subst hy; simpa using not_not.mp hmrg

/-- When the workspace merge loop completed, every traced command
succeeded. -/
theorem msvcCovLoop_ok (w : MsvcWorld) (wsBuild total : String) :
    ∀ covs created tr created' tr',
      msvcCovLoop w wsBuild total covs created tr = (none, created', tr') →
      (∀ y ∈ tr, w.run y.1 y.2 = 0) →
      ∀ y ∈ tr', w.run y.1 y.2 = 0 := by
  intro covs
  induction covs with
  | nil =>
    intro created tr created' tr' h hall
    simp only [msvcCovLoop, Prod.mk.injEq] at h
    obtain ⟨rfl, rfl⟩ := h.2
    exact hall
  | cons t ts ih =>
    intro created tr created' tr' h hall
    simp only [msvcCovLoop] at h
    split at h
    · simp at h
    · rename_i hmrg
      refine ih _ _ created' tr' h ?_
      intro y hy
      rcases List.mem_append.mp hy with hy | hy
      · exact hall y hy
      · simp at hy; subst hy; simpa using not_not.mp hmrg

/-- Invariant of gen_code_coverage_msvc: every traced command but the
last succeeded, and on return value 0 every traced command succeeded. -/
theorem msvc_ok_inv (w : MsvcWorld) (b workspace : String) (r : Int)
    (tr : List (String × String))
    (h : gen_code_coverage_msvc w b workspace = .ok (r, tr)) :
    (∀ y ∈ tr.dropLast, w.run y.1 y.2 = 0) ∧
      (r = 0 → ∀ y ∈ tr, w.run y.1 y.2 = 0) := by
  unfold gen_code_coverage_msvc at h
  split at h
  · exact absurd h (by simp)
  · split at h
    · rename_i rv cr trL hloop
      simp only [Except.ok.injEq, Prod.mk.injEq] at h
      obtain ⟨rfl, rfl⟩ := h
      obtain ⟨hdrop, hrv⟩ :=
        msvcTestLoop_fail w _ _ b w.testExeGlob [] [] rv cr trL hloop (by simp)
      refine ⟨hdrop, fun h0 => ?_⟩
      rw [hrv] at h0
      exact absurd h0 (by decide)
    · rename_i cr trL hloop
      have hallL : ∀ y ∈ trL, w.run y.1 y.2 = 0 :=
        msvcTestLoop_ok w _ _ b w.testExeGlob [] [] cr trL hloop (by simp)
      split at h
      · exact absurd h (by simp)
      · split at h
        · rename_i hexp1
          simp only [Except.ok.injEq, Prod.mk.injEq] at h
          obtain ⟨rfl, rfl⟩ := h
          refine ⟨by simpa using hallL, fun h0 => absurd h0 (by decide)⟩
        · rename_i hexp1
          have hall1 : ∀ y ∈ trL ++ [msvcExp1Cmd b workspace], w.run y.1 y.2 = 0 := by
            intro y hy
            rcases List.mem_append.mp hy with hy | hy
            · exact hallL y hy
            · simp at hy; subst hy; simpa using not_not.mp hexp1
          split at h
          · rename_i rv2 cr2 tr2 hcov
            simp only [Except.ok.injEq, Prod.mk.injEq] at h
            obtain ⟨rfl, rfl⟩ := h
            obtain ⟨hdrop, hrv⟩ :=
              msvcCovLoop_fail w _ _ w.covGlob cr _ rv2 cr2 tr2 hcov hall1
            refine ⟨hdrop, fun h0 => ?_⟩
            rw [hrv] at h0
            exact absurd h0 (by decide)
          · rename_i cr2 tr2 hcov
            have hall2 : ∀ y ∈ tr2, w.run y.1 y.2 = 0 :=
              msvcCovLoop_ok w _ _ w.covGlob cr _ cr2 tr2 hcov hall1
            split at h
            · rename_i hexp2
              simp only [Except.ok.injEq, Prod.mk.injEq] at h
              obtain ⟨rfl, rfl⟩ := h
              refine ⟨by simpa using hall2, fun h0 => absurd h0 (by decide)⟩
            · rename_i hexp2
              simp only [Except.ok.injEq, Prod.mk.injEq] at h
              obtain ⟨rfl, rfl⟩ := h
              have hall3 : ∀ y ∈ tr2 ++ [msvcExp2Cmd workspace], w.run y.1 y.2 = 0 := by
                intro y hy
                rcases List.mem_append.mp hy with hy | hy
                · exact hall2 y hy
                · simp at hy; subst hy; simpa using not_not.mp hexp2
              exact ⟨fun y hy => hall3 y (List.dropLast_subset _ hy), fun _ => hall3⟩

/-! ### Claim theorems -/

instance (d : XmlDoc) : Decidable (NamedOK d) := by
  unfold NamedOK; infer_instance

/-- Architecture world of the C1 scenario for X64: one discovered test
binary that exits with status 1; coverage generation succeeds. -/
def c1ArchX64 : ArchWorld :=
  { dirEntries := [⟨"/bld/X64/FooTest", true, 493⟩]
    exitCode := fun _ => 1
    resultFiles := fun _ => []
    covGccRet := 0, covMsvcRet := 0 }

/-- Architecture world of the C1 scenario for ARM: no entries at all,
so discovery yields an empty list. -/
def c1ArchEmpty : ArchWorld :=
  { dirEntries := []
    exitCode := fun _ => 0
    resultFiles := fun _ => []
    covGccRet := 0, covMsvcRet := 0 }

/-- Builder of the C1 scenario: a host_unit_test build on Linux with
TARGET_ARCH "X64 ARM", coverage enabled and the GCC5 toolchain. -/
def c1Builder : Builder :=
  { ciBuildType := "host_unit_test"
    targetArch := "X64 ARM"
    buildOutputBase := "/bld"
    codeCoverage := "TRUE"
    toolChainTag := "GCC5"
    hostOS := "Linux"
    archWorld := fun a => if a = "X64" then c1ArchX64 else c1ArchEmpty }

/-- The same build restricted to the X64 architecture alone. -/
def c1BuilderX64 : Builder :=
  { c1Builder with targetArch := "X64" }

/-- C1: when TestDiscovery yields an empty binary list for ARM, the
architecture's processing stops with zero failures and ARM's coverage
aggregation is never invoked (only X64's covGccInvoked event appears);
however, the `return 0` at line 106 ends the whole function, so the
failure accumulated for X64 is discarded: do_post_build returns 0,
although the identical run restricted to X64 alone returns 1. This
contradicts the claim (and the docstring's promise to return the count
of failures); the code is in error, the amended behaviour is exhibited
here. -/
theorem c1_empty_list_return_zero_discards_prior_failures :
    do_post_build c1Builder =
      .ok (0, [LogEntry.errorExec "FooTest", LogEntry.covGccInvoked,
               LogEntry.warnNoTests]) ∧
    do_post_build c1BuilderX64 =
      .ok (1, [LogEntry.errorExec "FooTest", LogEntry.covGccInvoked]) :=
  ⟨rfl, rfl⟩

/-- C4: parsing a well-formed result document whose failing cases carry
a `name` attribute increases the failure count by exactly the number of
`failure` nodes at the case level, and logs, per failure, the test-name
warning and the case-name/message warning. -/
theorem c4_parse_counts_failures_exactly (tn : String) (d : XmlDoc)
    (fc : Nat) (log : List LogEntry) (h : NamedOK d) :
    parseResultFile tn (.wellFormed d) (fc, log) =
      .ok (fc + docFailures d, log ++ docFailLog tn d) := by
  unfold parseResultFile docFailures docFailLog
  exact tallySuites_ok tn d.suites fc log h

/-- A two-suite document with two failure nodes among other results. -/
def c4Doc : XmlDoc :=
  { suites :=
    [ { cases :=
        [ { nameAttr := some "TestBar"
            results := [⟨"failure", "boom"⟩, ⟨"ok", ""⟩] },
          { nameAttr := none, results := [⟨"ok", ""⟩] } ] },
      { cases :=
        [ { nameAttr := some "TestBaz"
            results := [⟨"failure", "crash"⟩] } ] } ] }

/-- Witness for C4 on a concrete document with exactly two failures. -/
theorem c4_witness :
    parseResultFile "FooTest" (.wellFormed c4Doc) (0, []) =
      .ok (0 + docFailures c4Doc, [] ++ docFailLog "FooTest" c4Doc) :=
  c4_parse_counts_failures_exactly "FooTest" c4Doc 0 [] (by decide)

/-- C5: a binary exiting non-zero adds exactly one failure and one
error log line, processing continues with the remaining binaries, and
the binary's result files are never consulted: replacing them by any
other list does not change the run. -/
theorem c5_nonzero_exit_one_failure_no_parse (w : ArchWorld) (t : String)
    (ts : List String) (fc : Nat) (log : List LogEntry)
    (h : w.exitCode t ≠ 0) :
    runTests w (t :: ts) (fc, log) =
      runTests w ts (fc + 1, log ++ [LogEntry.errorExec (basename t)]) ∧
    (t ∉ ts → ∀ rf : List ResultFile,
      runTests { w with resultFiles := fun p => if p = t then rf else w.resultFiles p }
        (t :: ts) (fc, log) = runTests w (t :: ts) (fc, log)) := by
  constructor
  · simp [runTests, h]
  · intro hts rf
    have hstep : runTests
        { w with resultFiles := fun p => if p = t then rf else w.resultFiles p }
        (t :: ts) (fc, log) =
        runTests { w with resultFiles := fun p => if p = t then rf else w.resultFiles p }
          ts (fc + 1, log ++ [LogEntry.errorExec (basename t)]) := by
      simp [runTests, h]
    rw [hstep, show runTests w (t :: ts) (fc, log) =
        runTests w ts (fc + 1, log ++ [LogEntry.errorExec (basename t)]) from by
      simp [runTests, h]]
    refine runTests_congr _ w ts _ (fun x hx => ⟨rfl, ?_⟩)
    have hxt : x ≠ t := fun he => hts (he ▸ hx)
    simp [hxt]

/-- Architecture world of the C5 witness: the binary exits with 2. -/
def c5World : ArchWorld :=
  { dirEntries := []
    exitCode := fun _ => 2
    resultFiles := fun _ => [.wellFormed c4Doc]
    covGccRet := 0, covMsvcRet := 0 }

/-- Witness for C5 at a concrete binary exiting with status 2. -/
theorem c5_witness :
    runTests c5World ["/bld/BarTest"] (0, []) =
      runTests c5World [] (0 + 1, [] ++ [LogEntry.errorExec (basename "/bld/BarTest")]) ∧
    ("/bld/BarTest" ∉ ([] : List String) → ∀ rf : List ResultFile,
      runTests { c5World with
          resultFiles := fun p => if p = "/bld/BarTest" then rf else c5World.resultFiles p }
        ["/bld/BarTest"] (0, []) = runTests c5World ["/bld/BarTest"] (0, [])) :=
  c5_nonzero_exit_one_failure_no_parse c5World "/bld/BarTest" [] 0 [] (by decide)

/-- C6: a malformed result document of a zero-exit binary (all other
documents being schema-conforming) makes the whole test loop abort with
an uncaught ParseError; no failure count is returned. -/
theorem c6_malformed_xml_propagates (w : ArchWorld) (t : String)
    (ts : List String) (st : TallySt)
    (h0 : w.exitCode t = 0)
    (hm : ResultFile.malformed ∈ w.resultFiles t)
    (hn : ∀ d, ResultFile.wellFormed d ∈ w.resultFiles t → NamedOK d) :
    ∃ log', runTests w (t :: ts) st = .error (.parseError, log') := by
  obtain ⟨l, hl⟩ := parseFiles_malformed (basename t) (w.resultFiles t)
    (st.1, st.2 ++ [LogEntry.infoCompleted (basename t)]) hm hn
  exact ⟨l, by simp [runTests, h0, hl]⟩

/-- Architecture world of the C6 witness: the binary exits 0 and left
one malformed result document. -/
def c6World : ArchWorld :=
  { dirEntries := []
    exitCode := fun _ => 0
    resultFiles := fun _ => [.malformed]
    covGccRet := 0, covMsvcRet := 0 }

/-- Witness for C6 at a concrete malformed document. -/
theorem c6_witness :
    ∃ log', runTests c6World ["/bld/FooTest"] (0, []) = .error (.parseError, log') :=
  c6_malformed_xml_propagates c6World "/bld/FooTest" [] (0, []) rfl (by decide)
    (by intro d hd; simp [c6World] at hd)

/-- C7: every candidate kept by the Linux discovery comes from the
`*Test*` glob (its name contains "Test"), is a regular file, and has at
least one of the owner/group/other execute bits set; entries failing
these checks are removed with a debug diagnostic and no failure count
is involved anywhere in discovery. -/
theorem c7_discovery_filters (dir : List DirEntry) (e : DirEntry)
    (h : e ∈ discoverLinux dir) :
    containsTest e.name = true ∧ e.isFile = true ∧
      e.mode &&& (S_IEXEC ||| S_IXGRP ||| S_IXOTH) ≠ 0 := by
  simp only [discoverLinux, globLinux, List.mem_filter, Bool.and_eq_true,
    bne_iff_ne, ne_eq] at h
  exact ⟨h.1.2, h.2.1, h.2.2⟩

/-- Witness for C7 at a concrete executable regular file. -/
theorem c7_witness :
    containsTest (DirEntry.name ⟨"/bld/X64/FooTest", true, 493⟩) = true ∧
    DirEntry.isFile ⟨"/bld/X64/FooTest", true, 493⟩ = true ∧
    DirEntry.mode ⟨"/bld/X64/FooTest", true, 493⟩ &&& (S_IEXEC ||| S_IXGRP ||| S_IXOTH) ≠ 0 :=
  c7_discovery_filters [⟨"/bld/X64/FooTest", true, 493⟩] ⟨"/bld/X64/FooTest", true, 493⟩
    (by decide)

/-- C9: when `lcov --version` exits 0 but its output contains no
`version <digits>.<digits>` substring, get_lcov_version raises
AttributeError (the regex search returned None); a clean None result
occurs exactly when the command exits non-zero. -/
theorem c9_lcov_version_none_only_on_nonzero_exit (w : CovWorld) :
    (w.run "lcov" "--version" = 0 → searchVersion w.lcovVersionOut.data = none →
      get_lcov_version w = .error .attributeError) ∧
    (get_lcov_version w = .ok none ↔ w.run "lcov" "--version" ≠ 0) := by
  refine ⟨fun h0 hs => by simp [get_lcov_version, h0, hs], ?_, fun h => by simp [get_lcov_version, h]⟩
  intro h
  by_contra hr
  simp only [get_lcov_version, hr, ne_eq, not_true_eq_false, if_false] at h
  cases hs : searchVersion w.lcovVersionOut.data with
  | none => simp [hs] at h
  | some m => simp [hs] at h

/-- Coverage world of the C9 witness: the version query succeeds but
prints no version number. -/
def c9World : CovWorld :=
  { run := fun _ _ => 0
    lcovVersionOut := "lcov: fancy development build"
    totalCoverageGlob := []
    coverageXmlExists := false }

/-- Witness for C9 at a concrete version output without numbers. -/
theorem c9_witness : get_lcov_version c9World = .error .attributeError :=
  (c9_lcov_version_none_only_on_nonzero_exit c9World).1 rfl (by decide)

/-- C10: a well-formed document containing a failure node inside a case
without a `name` attribute makes the tally loop raise an uncaught
KeyError after logging the test-name warning; the count accumulated so
far is lost rather than returned. -/
theorem c10_missing_name_attr_keyerror (tn : String) (d : XmlDoc) (st : TallySt)
    (h : ∃ s ∈ d.suites, ∃ c ∈ s.cases,
      c.nameAttr = none ∧ ∃ r ∈ c.results, r.tag = "failure") :
    ∃ log', parseResultFile tn (.wellFormed d) st = .error (.keyError, log') ∧
      LogEntry.warnTestFailed tn ∈ log' := by
  simpa [parseResultFile] using tallySuites_err tn d.suites st h

/-- A document whose only failure node sits in a nameless case. -/
def c10Doc : XmlDoc :=
  { suites := [ { cases := [ { nameAttr := none
                               results := [⟨"ok", ""⟩, ⟨"failure", "boom"⟩] } ] } ] }

/-- Witness for C10 at a concrete nameless failing case. -/
theorem c10_witness :
    ∃ log', parseResultFile "FooTest" (.wellFormed c10Doc) (7, []) =
      .error (.keyError, log') ∧ LogEntry.warnTestFailed "FooTest" ∈ log' :=
  c10_missing_name_attr_keyerror "FooTest" c10Doc (7, []) (by decide)

/-! ### C2: fail-fast coverage pipelines -/

/-- C2 (amended): in both coverage pipelines, a stage whose spawned
command exits non-zero is the last stage executed; the function then
returns a non-zero indicator — except for the final workspace-report
conversion of the GCC variant (the command at position 7 of its trace,
after the version query at position 0), whose exit status the source
assigns to `ret` but never checks, so the function returns 0. The MSVC
variant checks every stage. -/
theorem c2_coverage_fail_fast_except_final_gcc_stage :
    (∀ (w : CovWorld) (b ws : String) (r : Int)
        (tr pre post : List (String × String)) (x : String × String),
      gen_code_coverage_gcc w b ws = .ok (r, tr) → tr = pre ++ x :: post →
      w.run x.1 x.2 ≠ 0 → post = [] ∧ (pre.length < 7 → r ≠ 0)) ∧
    (∀ (w : MsvcWorld) (b workspace : String) (r : Int)
        (tr pre post : List (String × String)) (x : String × String),
      gen_code_coverage_msvc w b workspace = .ok (r, tr) → tr = pre ++ x :: post →
      w.run x.1 x.2 ≠ 0 → post = [] ∧ r ≠ 0) := by
  constructor
  · intro w b ws r tr pre post x hok hdec hbad
    obtain ⟨hgood, hlen⟩ := gcc_ok_inv w b ws r tr hok
    have hpost := traced_fail_last w.run tr pre post x hdec hgood hbad
    refine ⟨hpost, fun hlt hr0 => ?_⟩
    have h8 := hlen hr0
    rw [hdec, hpost] at h8
    simp at h8
    omega
  · intro w b workspace r tr pre post x hok hdec hbad
    obtain ⟨hgood, hall0⟩ := msvc_ok_inv w b workspace r tr hok
    have hpost := traced_fail_last w.run tr pre post x hdec hgood hbad
    refine ⟨hpost, fun hr0 => ?_⟩
    exact hbad (hall0 hr0 x (by simp [hdec]))

/-- Coverage world of the C2 counterexample: every command succeeds
except the final workspace lcov_cobertura conversion. -/
def c2GccWorld : CovWorld :=
  { run := fun c a => if c = "lcov_cobertura" ∧ a = gccStage7Args "/ws" then 1 else 0
    lcovVersionOut := "lcov: LCOV version 2.0-1"
    totalCoverageGlob := ["/ws/Build/Pkg/total-coverage.info"]
    coverageXmlExists := false }

/-- The full eight-command trace of the C2 counterexample run. -/
def c2GccTrace : List (String × String) :=
  [versionCmd,
   ("lcov", gccStage1Args "/bld" (lcovErrorSettings 2)),
   ("lcov", gccStage2Args "/bld" (lcovErrorSettings 2)),
   ("lcov", gccStage3Args "/bld" (lcovErrorSettings 2)),
   ("lcov_cobertura", gccStage4Args "/bld"),
   ("lcov_cobertura", gccStage5Args "/bld"),
   ("lcov", gccStage6Args (gccCoverageFileArg ["/ws/Build/Pkg/total-coverage.info"]) "/ws"
     (lcovErrorSettings 2)),
   ("lcov_cobertura", gccStage7Args "/ws")]

/-- C2 counterexample: the final stage of the GCC pipeline (the
workspace coverage-report conversion) exits 1, is executed as part of
the trace, and yet gen_code_coverage_gcc returns 0, contradicting the
claim that any stage's non-zero exit makes the function return a
non-zero indicator. -/
theorem c2_gcc_final_stage_status_ignored :
    gen_code_coverage_gcc c2GccWorld "/bld" "/ws" = .ok (0, c2GccTrace) ∧
    ("lcov_cobertura", gccStage7Args "/ws") ∈ c2GccTrace ∧
    c2GccWorld.run "lcov_cobertura" (gccStage7Args "/ws") = 1 :=
  ⟨rfl, by simp [c2GccTrace], rfl⟩

/-- MSVC world of the C2 witness: every command fails. -/
def c2MsvcWorld : MsvcWorld :=
  { run := fun _ _ => 1
    testExeGlob := ["/bld/X64/FooTest.exe"]
    covGlob := []
    isfile0 := fun _ => false }

/-- Witness for C2 at a concrete MSVC run whose first capture fails:
the failing capture is the last traced command and the return is 1. -/
theorem c2_witness :
    ([] : List (String × String)) = [] ∧ (1 : Int) ≠ 0 :=
  c2_coverage_fail_fast_except_final_gcc_stage.2 c2MsvcWorld "/bld" "/ws" 1
    [("OpenCppCoverage", msvcCaptureArgs (msvcWs "/ws") "/bld/X64/FooTest.exe")] [] []
    ("OpenCppCoverage", msvcCaptureArgs (msvcWs "/ws") "/bld/X64/FooTest.exe")
    rfl rfl (by decide)

/-! ### C3: artifact path disjointness -/

/-- Character list of a GTEST result-file path. -/
theorem gtestResultFile_data (t a : String) :
    (gtestResultFile t a).data =
      t.data ++ ".GTEST.".data ++ a.data ++ ".result.xml".data := by
  simp [gtestResultFile, String.data_append]

/-- Character list of a CMOCKA result-file pattern. -/
theorem cmockaXmlFile_data (t a : String) :
    (cmockaXmlFile t a).data =
      t.data ++ ".CMOCKA.%g.".data ++ a.data ++ ".result.xml".data := by
  simp [cmockaXmlFile, String.data_append]

/-- Extracting the architecture segment: dropping the fixed suffix from
the reversed path and taking up to the first dot recovers the reversed
architecture, for any dot-free architecture and any middle segment
that ends in a dot. -/
theorem rev_extract (t mid a suf m0 : List Char) (hmid : mid = m0 ++ ['.'])
    (ha : ∀ c ∈ a, c ≠ '.') :
    ((t ++ mid ++ a ++ suf).reverse.drop suf.length).takeWhile
      (fun c => decide (c ≠ '.')) = a.reverse := by
  subst hmid
  rw [show t ++ (m0 ++ ['.']) ++ a ++ suf = (t ++ m0 ++ ('.' :: a)) ++ suf by simp]
  rw [List.reverse_append, show suf.length = suf.reverse.length by simp, List.drop_left]
  rw [show t ++ m0 ++ ('.' :: a) = (t ++ m0) ++ ('.' :: a) by simp, List.reverse_append]
  rw [show ('.' :: a).reverse = a.reverse ++ ['.'] by simp, List.append_assoc]
  exact takeWhile_append_stop _ a.reverse '.' _
    (fun x hx => by simpa using ha x (List.mem_reverse.mp hx)) (by simp)

/-- The architecture segment is recoverable from a GTEST result path. -/
theorem gtest_extract (t a : String) (ha : ∀ c ∈ a.data, c ≠ '.') :
    ((gtestResultFile t a).data.reverse.drop 11).takeWhile
      (fun c => decide (c ≠ '.')) = a.data.reverse := by
  rw [gtestResultFile_data]
  exact rev_extract t.data ".GTEST.".data a.data ".result.xml".data ".GTEST".data rfl ha

/-- The architecture segment is recoverable from a CMOCKA pattern. -/
theorem cmocka_extract (t a : String) (ha : ∀ c ∈ a.data, c ≠ '.') :
    ((cmockaXmlFile t a).data.reverse.drop 11).takeWhile
      (fun c => decide (c ≠ '.')) = a.data.reverse := by
  rw [cmockaXmlFile_data]
  exact rev_extract t.data ".CMOCKA.%g.".data a.data ".result.xml".data ".CMOCKA.%g".data rfl ha

/-- C3 (amended): the per-binary result-file names do embed the
architecture segment, so for two distinct dot-free architecture names
the derived result files can never collide, whatever the binary paths;
the coverage snapshot/aggregate/report paths, however, contain no
architecture segment (see the counterexample), so the full artifact
sets of two architectures are not disjoint. -/
theorem c3_result_paths_disjoint_coverage_paths_shared
    (t1 t2 a1 a2 : String) (hne : a1 ≠ a2)
    (h1 : ∀ c ∈ a1.data, c ≠ '.') (h2 : ∀ c ∈ a2.data, c ≠ '.') :
    gtestResultFile t1 a1 ≠ gtestResultFile t2 a2 ∧
    cmockaXmlFile t1 a1 ≠ cmockaXmlFile t2 a2 := by
  constructor
  · intro heq
    apply hne
    apply strExt
    apply List.reverse_injective
    rw [← gtest_extract t1 a1 h1, ← gtest_extract t2 a2 h2, heq]
  · intro heq
    apply hne
    apply strExt
    apply List.reverse_injective
    rw [← cmocka_extract t1 a1 h1, ← cmocka_extract t2 a2 h2, heq]

/-- Witness for C3 at the concrete architectures X64 and ARM. -/
theorem c3_witness :
    gtestResultFile "/bld/X64/FooTest" "X64" ≠ gtestResultFile "/bld/ARM/FooTest" "ARM" ∧
    cmockaXmlFile "/bld/X64/FooTest" "X64" ≠ cmockaXmlFile "/bld/ARM/FooTest" "ARM" :=
  c3_result_paths_disjoint_coverage_paths_shared "/bld/X64/FooTest" "/bld/ARM/FooTest"
    "X64" "ARM" (by decide) (by decide) (by decide)

/-- All artifact paths the pipeline derives while processing one
architecture: the two per-binary result-file names (lines 111 and 114)
and the GCC-variant coverage output paths, read off the --output-file
and -o arguments of lines 179-222; none of the coverage paths mentions
the architecture. -/
def archArtifacts (ws b arch : String) (tests : List String) : List String :=
  (tests.map (fun t => cmockaXmlFile t arch)) ++
  (tests.map (fun t => gtestResultFile t arch)) ++
  [b ++ "/cov-base.info", b ++ "/coverage-test.info", b ++ "/total-coverage.info",
   b ++ "/compare.xml", b ++ "/coverage.xml",
   ws ++ "/Build/all-coverage.info", ws ++ "/Build/coverage.xml"]

/-- C3 counterexample: for the distinct architectures X64 and ARM over
the same workspace and package build-output roots, the derived artifact
sets share the baseline-snapshot path, so they are not disjoint: the
claim that the architecture segment is embedded in every derived
filename fails for the coverage artifacts. -/
theorem c3_coverage_path_collision :
    "X64" ≠ "ARM" ∧
    "/bld/cov-base.info" ∈ archArtifacts "/ws" "/bld" "X64" ["/bld/X64/FooTest"] ∧
    "/bld/cov-base.info" ∈ archArtifacts "/ws" "/bld" "ARM" ["/bld/ARM/FooTest"] :=
  ⟨by decide, by decide, by decide⟩

/-! ### C8: the lcov compatibility flag -/

/-- The arguments of the initial-capture stage split into a prefix
independent of the settings, followed by the settings text. -/
theorem gccStage1Args_data (b les : String) :
    (gccStage1Args b les).data = (gccStage1Args b "").data ++ les.data := by
  simp [gccStage1Args, String.data_append, instToStringString]

/-- The arguments of the test-capture stage split the same way. -/
theorem gccStage2Args_data (b les : String) :
    (gccStage2Args b les).data = (gccStage2Args b "").data ++ les.data := by
  simp [gccStage2Args, String.data_append, instToStringString]

/-- The arguments of the aggregate stage split the same way. -/
theorem gccStage3Args_data (b les : String) :
    (gccStage3Args b les).data = (gccStage3Args b "").data ++ les.data := by
  simp [gccStage3Args, String.data_append, instToStringString]

/-- The arguments of the workspace-aggregate stage split the same way. -/
theorem gccStage6Args_data (covFile ws les : String) :
    (gccStage6Args covFile ws les).data = (gccStage6Args covFile ws "").data ++ les.data := by
  simp [gccStage6Args, String.data_append, instToStringString]

/-- Occurrence of the mismatch flag in a prefix extended by
lcov_error_settings is equivalent to the major version being at least
2, provided the prefix itself does not contain the flag. -/
theorem flag_in_append (A : List Char) (major : Nat)
    (hA : subOcc "--ignore-errors mismatch".data A = false) :
    (subOcc "--ignore-errors mismatch".data (A ++ (lcovErrorSettings major).data) = true ↔
      2 ≤ major) := by
  by_cases hm : 2 ≤ major
  · simp only [lcovErrorSettings, if_pos hm]
    exact iff_of_true (subOcc_append_self _ A) hm
  · simp only [lcovErrorSettings, if_neg hm]
    rw [List.append_nil]
    exact iff_of_false (by simp [hA]) hm

/-- C8: each of the four lcov invocations of the GCC pipeline carries
the substring `--ignore-errors mismatch` exactly when the detected
major version is at least 2; for smaller majors the settings text is
empty and the flag appears nowhere (the hypotheses record that the
remaining argument text, including the interpolated paths, does not
accidentally contain the flag). -/
theorem c8_lcov_mismatch_flag_iff_major_ge_two (major : Nat) (b covFile ws : String)
    (h1 : subOcc "--ignore-errors mismatch".data (gccStage1Args b "").data = false)
    (h2 : subOcc "--ignore-errors mismatch".data (gccStage2Args b "").data = false)
    (h3 : subOcc "--ignore-errors mismatch".data (gccStage3Args b "").data = false)
    (h6 : subOcc "--ignore-errors mismatch".data (gccStage6Args covFile ws "").data = false) :
    (subOcc "--ignore-errors mismatch".data
      (gccStage1Args b (lcovErrorSettings major)).data = true ↔ 2 ≤ major) ∧
    (subOcc "--ignore-errors mismatch".data
      (gccStage2Args b (lcovErrorSettings major)).data = true ↔ 2 ≤ major) ∧
    (subOcc "--ignore-errors mismatch".data
      (gccStage3Args b (lcovErrorSettings major)).data = true ↔ 2 ≤ major) ∧
    (subOcc "--ignore-errors mismatch".data
      (gccStage6Args covFile ws (lcovErrorSettings major)).data = true ↔ 2 ≤ major) := by
  refine ⟨?_, ?_, ?_, ?_⟩
  · rw [gccStage1Args_data]; exact flag_in_append _ major h1
  · rw [gccStage2Args_data]; exact flag_in_append _ major h2
  · rw [gccStage3Args_data]; exact flag_in_append _ major h3
  · rw [gccStage6Args_data]; exact flag_in_append _ major h6

/-- Witness for C8 at concrete paths and major version 2. -/
theorem c8_witness :
    (subOcc "--ignore-errors mismatch".data
      (gccStage1Args "/bld" (lcovErrorSettings 2)).data = true ↔ 2 ≤ 2) ∧
    (subOcc "--ignore-errors mismatch".data
      (gccStage2Args "/bld" (lcovErrorSettings 2)).data = true ↔ 2 ≤ 2) ∧
    (subOcc "--ignore-errors mismatch".data
      (gccStage3Args "/bld" (lcovErrorSettings 2)).data = true ↔ 2 ≤ 2) ∧
    (subOcc "--ignore-errors mismatch".data
      (gccStage6Args " --add-tracefile /ws/Build/Pkg/total-coverage.info" "/ws"
        (lcovErrorSettings 2)).data = true ↔ 2 ≤ 2) :=
  c8_lcov_mismatch_flag_iff_major_ge_two 2 "/bld"
    " --add-tracefile /ws/Build/Pkg/total-coverage.info" "/ws"
    (by decide) (by decide) (by decide) (by decide)
